import Mathlib

/-!
Verification of the process-context publisher and codec of
`src/process-context/c-and-cpp/otel_process_ctx.c`.

Modelling conventions for the shallow embedding:

* A C byte is a `Nat` below 256; a C string is a NUL-free list of such bytes
  (`strlen` is then the list length).  Byte buffers are `List Nat`.
* Fallible C functions returning a result struct become `Except String` or
  `Option` values; the error strings keep the source text together with a
  `file:line` hint matching the C `__FILE__ ":" __LINE__` suffix.
* Heap allocation (`calloc`, `strdup`) is modelled as always succeeding;
  `free` calls are recorded in explicit `freed` lists (a `free(NULL)` is a
  no-op and is not recorded).
* The decoder's `while` loops become fuel-bounded structural recursion; the
  fuel passed at every call site (buffer length + 1) exceeds the number of
  loop iterations, each of which consumes at least one byte, so the fuel
  never runs out and the embedding never fails spuriously.
* The process-wide singleton `published_state`, the current pid and the
  syscall results (`clock_gettime`, `memfd_create`, `ftruncate`, `mmap`,
  `close`, `madvise`, `munmap`) are passed explicitly; `prctl` naming is
  best-effort and ignored by the source, so it has no observable effect in
  the model.
* Stores to the shared header during `publish`/`update` are recorded in a
  `trace` list of successive header values, in the order the source performs
  them (the seq-cst fences order these stores; a fence itself changes no
  state, so it contributes no trace entry).
-/

namespace OtelProcessCtx

/-- Byte list of an ASCII string literal (used for the fixed protobuf keys,
the `OTEL_CTX` signature and nothing else; all are 7-bit ASCII, where
`Char.toNat` coincides with the UTF-8 byte). -/
def strBytes (s : String) : List Nat := s.data.map Char.toNat

/-- `KEY_VALUE_LIMIT` from otel_process_ctx.c line 28. -/
def KEY_VALUE_LIMIT : Nat := 4096

/-- `UINT14_MAX` from otel_process_ctx.c line 29. -/
def UINT14_MAX : Nat := 16383

/-- `protobuf_varint_size` (line 285): `value >= 128 ? 2 : 1`.  The C caller
is responsible for keeping `value ≤ UINT14_MAX`. -/
def protobuf_varint_size (value : Nat) : Nat := if value ≥ 128 then 2 else 1

/-- `protobuf_record_size` (line 288): field tag + varint len + data. -/
def protobuf_record_size (len : Nat) : Nat := 1 + protobuf_varint_size len + len

/-- `protobuf_string_size` (line 290): record size of `strlen(str)`. -/
def protobuf_string_size (str : List Nat) : Nat := protobuf_record_size str.length

/-- `protobuf_otel_keyvalue_string_size` (lines 292-296): key string field plus
nested AnyValue message with a string inside; does not include the KeyValue
record tag + size. -/
def protobuf_otel_keyvalue_string_size (key value : List Nat) : Nat :=
  protobuf_string_size key + protobuf_record_size (protobuf_string_size value)

/-- `validate_and_calculate_protobuf_payload_size` (lines 299-321), on the
flattened NULL-terminated `pairs` array re-expressed as a list of key/value
pairs.  The C parity check (`num_entries % 2 != 0`, which fires exactly when
some value slot is NULL, since the scan stops at the first NULL entry) cannot
fire on a typed pair list; it is performed by the encoder's NULL-field check
below, which produces the same error message. -/
def validate_and_calculate_protobuf_payload_size :
    List (List Nat × List Nat) → Except String Nat
  | [] => .ok 0
  | (key, value) :: rest =>
    if key.length > KEY_VALUE_LIMIT then
      .error "Length of key in otel_process_ctx_data exceeds 4096 limit (otel_process_ctx.c:312)"
    else if value.length > KEY_VALUE_LIMIT then
      .error "Length of value in otel_process_ctx_data exceeds 4096 limit (otel_process_ctx.c:315)"
    else
      match validate_and_calculate_protobuf_payload_size rest with
      | .error msg => .error msg
      | .ok rest_size =>
        .ok (protobuf_record_size (protobuf_otel_keyvalue_string_size key value) + rest_size)

/-- `write_protobuf_varint` (lines 327-335).  The C parameter is `uint16_t`,
hence the `% 65536` at entry; in the two-byte case the second stored byte is
`(char)(value >> 7)`, hence the `% 256`. -/
def write_protobuf_varint (value0 : Nat) : List Nat :=
  let value := value0 % 65536
  if protobuf_varint_size value = 1 then [value]
  else [value % 128 + 128, value / 128 % 256]

/-- `write_protobuf_string` (lines 337-342): varint length, then the bytes. -/
def write_protobuf_string (str : List Nat) : List Nat :=
  write_protobuf_varint str.length ++ str

/-- `write_protobuf_tag` (lines 344-346): one byte `(field_number << 3) | 2`
(wire type is always 2 = LEN); the low three bits of the shifted field number
are zero, so the bitwise or is the sum, and the `(char)` cast is `% 256`. -/
def write_protobuf_tag (field_number : Nat) : List Nat :=
  [(field_number * 8 + 2) % 256]

/-- `write_attribute` (lines 348-361): the eight writes, in source order. -/
def write_attribute (key value : List Nat) : List Nat :=
  write_protobuf_tag 1 ++
  write_protobuf_varint (protobuf_otel_keyvalue_string_size key value) ++
  write_protobuf_tag 1 ++
  write_protobuf_string key ++
  write_protobuf_tag 2 ++
  write_protobuf_varint (protobuf_string_size value) ++
  write_protobuf_tag 1 ++
  write_protobuf_string value

/-- The emit loops of `otel_process_ctx_encode_protobuf_payload` (lines
398-404): one `write_attribute` per pair, in order. -/
def write_attributes : List (List Nat × List Nat) → List Nat
  | [] => []
  | (key, value) :: rest => write_attribute key value ++ write_attributes rest

/-- `otel_process_ctx_data` from otel_process_ctx.h: seven identity strings
plus an optional NULL-terminated array of resource key/value pairs.  A NULL
string pointer is `none`. -/
structure otel_process_ctx_data where
  deployment_environment_name : Option (List Nat)
  service_instance_id : Option (List Nat)
  service_name : Option (List Nat)
  service_version : Option (List Nat)
  telemetry_sdk_language : Option (List Nat)
  telemetry_sdk_version : Option (List Nat)
  telemetry_sdk_name : Option (List Nat)
  resources : Option (List (List Nat × List Nat))
deriving DecidableEq

/-- `empty_data` (lines 37-46): all fields NULL. -/
def empty_data : otel_process_ctx_data :=
  ⟨none, none, none, none, none, none, none, none⟩

/-- The fixed `pairs` array built by the encoder (lines 369-378), keys in
source order. -/
def identity_pairs (e i n v lang sv sn : List Nat) : List (List Nat × List Nat) :=
  [(strBytes "deployment.environment.name", e),
   (strBytes "service.instance.id", i),
   (strBytes "service.name", n),
   (strBytes "service.version", v),
   (strBytes "telemetry.sdk.language", lang),
   (strBytes "telemetry.sdk.version", sv),
   (strBytes "telemetry.sdk.name", sn)]

/-- `otel_process_ctx_encode_protobuf_payload` (lines 368-410).  Returns the
written byte buffer and `out_size`, the `(uint32_t)` cast of the computed
total size.  If any identity field is NULL, the C NULL-terminated `pairs`
array ends at the first NULL value slot, making `num_entries` odd, and
`validate_and_calculate_protobuf_payload_size` fails with its parity-check
message before checking any length; the typed model performs that check
here with the same message.  `calloc` failure (line 393) is an allocation
failure outside the model. -/
def otel_process_ctx_encode_protobuf_payload (data : otel_process_ctx_data) :
    Except String (List Nat × Nat) :=
  match data.deployment_environment_name, data.service_instance_id, data.service_name,
        data.service_version, data.telemetry_sdk_language, data.telemetry_sdk_version,
        data.telemetry_sdk_name with
  | some e, some i, some n, some v, some lang, some sv, some sn =>
    match validate_and_calculate_protobuf_payload_size (identity_pairs e i n v lang sv sn) with
    | .error msg => .error msg
    | .ok pairs_size =>
      match (match data.resources with
             | some rs => validate_and_calculate_protobuf_payload_size rs
             | none => .ok 0) with
      | .error msg => .error msg
      | .ok resources_pairs_size =>
        .ok (write_attributes (identity_pairs e i n v lang sv sn) ++
               write_attributes (data.resources.getD []),
             (pairs_size + resources_pairs_size) % 4294967296)
  | _, _, _, _, _, _, _ =>
    .error "Value in otel_process_ctx_data is NULL (otel_process_ctx.c:303)"

/-- `read_protobuf_varint` (lines 448-465): one byte below 128, or two bytes
`(first & 0x7F) | (second << 7)` (disjoint bits, so the or is the sum) with
the result checked against `UINT14_MAX`; fails when it runs past the end. -/
def read_protobuf_varint : List Nat → Option (Nat × List Nat)
  | [] => none
  | first_byte :: rest =>
    if first_byte < 128 then some (first_byte, rest)
    else
      match rest with
      | [] => none
      | second_byte :: rest2 =>
        let value := first_byte % 128 + second_byte * 128
        if value ≤ UINT14_MAX then some (value, rest2) else none

/-- `read_protobuf_string` (lines 468-477).  The list passed in runs exactly
up to the C `end_ptr`, so `*ptr + len > end_ptr` is `len > rest.length`.
Returns the copied bytes and the remainder. -/
def read_protobuf_string (l : List Nat) : Option (List Nat × List Nat) :=
  match read_protobuf_varint l with
  | none => none
  | some (len, rest) =>
    if len ≥ KEY_VALUE_LIMIT + 1 then none
    else if len > rest.length then none
    else some (rest.take len, rest.drop len)

/-- `read_protobuf_tag` (lines 480-490): wire type is the low three bits and
must be 2 (LEN); the field number is `tag >> 3`. -/
def read_protobuf_tag (l : List Nat) : Option (Nat × List Nat) :=
  match l with
  | [] => none
  | tag :: rest => if tag % 8 = 2 then some (tag / 8, rest) else none

/-- C-string contents of a NUL-terminated buffer: the bytes before the first
NUL.  `read_protobuf_string` stores `len` bytes and then a terminating NUL
into `key_buffer`/`value_buffer`; the subsequent `strcmp`/`strdup` only see
the bytes before the first NUL of those `len` bytes. -/
def cstr (buffer : List Nat) : List Nat := buffer.takeWhile (fun b => b ≠ 0)

/-- The inner KeyValue loop of `otel_process_ctx_decode_payload` (lines
514-536) plus the `key_found`/`value_found` check of line 538, on the exact
byte segment of one KeyValue record.  `key?`/`value?` hold the last string
stored into `key_buffer`/`value_buffer`.  `fuel` bounds the iteration count;
every iteration consumes at least the tag byte, so `segment length + 1`
suffices. -/
def parse_keyvalue :
    Nat → List Nat → Option (List Nat) → Option (List Nat) →
    Option (List Nat × List Nat)
  | 0, _, _, _ => none
  | _ + 1, [], key?, value? =>
    match key?, value? with
    | some k, some v => some (k, v)
    | _, _ => none
  | fuel + 1, tagByte :: rest0, key?, value? =>
    match read_protobuf_tag (tagByte :: rest0) with
    | none => none
    | some (kv_field, rest) =>
      if kv_field = 1 then
        match read_protobuf_string rest with
        | none => none
        | some (s, rest2) => parse_keyvalue fuel rest2 (some s) value?
      else if kv_field = 2 then
        match read_protobuf_varint rest with
        | none => none
        | some (_any_len, rest2) =>
          match read_protobuf_tag rest2 with
          | none => none
          | some (any_field, rest3) =>
            if any_field = 1 then
              match read_protobuf_string rest3 with
              | none => none
              | some (s, rest4) => parse_keyvalue fuel rest4 key? (some s)
            else parse_keyvalue fuel rest3 key? value?
      else parse_keyvalue fuel rest key? value?

/-- The key dispatch of `otel_process_ctx_decode_payload` (lines 544-562):
known identity keys overwrite the named field; unknown keys append to the
resource array, failing once `resource_index + 2 >= resource_capacity`
(capacity 201, `resource_index` = 2 × stored pairs).  `key` and `value` are
the `strdup`ed C strings, i.e. already `cstr`-truncated by the caller. -/
def dispatch_keyvalue (data_out : otel_process_ctx_data) (key value : List Nat) :
    Option otel_process_ctx_data :=
  if key = strBytes "deployment.environment.name" then
    some { data_out with deployment_environment_name := some value }
  else if key = strBytes "service.instance.id" then
    some { data_out with service_instance_id := some value }
  else if key = strBytes "service.name" then
    some { data_out with service_name := some value }
  else if key = strBytes "service.version" then
    some { data_out with service_version := some value }
  else if key = strBytes "telemetry.sdk.language" then
    some { data_out with telemetry_sdk_language := some value }
  else if key = strBytes "telemetry.sdk.version" then
    some { data_out with telemetry_sdk_version := some value }
  else if key = strBytes "telemetry.sdk.name" then
    some { data_out with telemetry_sdk_name := some value }
  else
    let resources := data_out.resources.getD []
    if 2 * resources.length + 2 ≥ 201 then none
    else some { data_out with resources := some (resources ++ [(key, value)]) }

/-- The outer record loop of `otel_process_ctx_decode_payload` (lines
505-563): top-level tag must be LEN with field number 1, the record length
varint must fit in the remaining buffer, the record's bytes are parsed as a
KeyValue and dispatched.  `fuel` bounds the iteration count; every iteration
consumes at least the tag byte, so `buffer length + 1` suffices. -/
def decode_records :
    Nat → List Nat → otel_process_ctx_data → Option otel_process_ctx_data
  | 0, _, _ => none
  | _ + 1, [], data_out => some data_out
  | fuel + 1, tagByte :: rest0, data_out =>
    match read_protobuf_tag (tagByte :: rest0) with
    | none => none
    | some (field_number, rest) =>
      if field_number ≠ 1 then none
      else
        match read_protobuf_varint rest with
        | none => none
        | some (kv_len, rest2) =>
          if kv_len > rest2.length then none
          else
            match parse_keyvalue (kv_len + 1) (rest2.take kv_len) none none with
            | none => none
            | some (k, v) =>
              match dispatch_keyvalue data_out (cstr k) (cstr v) with
              | none => none
              | some data_out2 => decode_records fuel (rest2.drop kv_len) data_out2

/-- `otel_process_ctx_decode_payload` (lines 494-573): start from
`empty_data` with a freshly allocated (empty) resource array, run the record
loop, then validate that all seven required identity fields were found. -/
def otel_process_ctx_decode_payload (payload : List Nat) :
    Option otel_process_ctx_data :=
  match decode_records (payload.length + 1) payload
      { empty_data with resources := some [] } with
  | none => none
  | some data_out =>
    if data_out.deployment_environment_name.isSome &&
       data_out.service_instance_id.isSome &&
       data_out.service_name.isSome &&
       data_out.service_version.isSome &&
       data_out.telemetry_sdk_language.isSome &&
       data_out.telemetry_sdk_version.isSome &&
       data_out.telemetry_sdk_name.isSome then some data_out
    else none

/-- `otel_process_ctx_mapping` (lines 77-83): the shared header record.  The
payload pointer is modelled by the pointed-to byte buffer (buffers are
immutable once published, so contents identify the needed observations). -/
structure otel_process_ctx_mapping where
  otel_process_ctx_signature : List Nat
  otel_process_ctx_version : Nat
  otel_process_payload_size : Nat
  otel_process_ctx_published_at_ns : Nat
  otel_process_payload : List Nat
deriving DecidableEq

/-- The value of the singleton's `mapping` pointer: NULL, `MAP_FAILED`, or a
valid mapping holding a header. -/
inductive MappingPtr where
  | null
  | map_failed
  | mapped (hdr : otel_process_ctx_mapping)
deriving DecidableEq

/-- `otel_process_ctx_state` (lines 90-98): the process-wide singleton. -/
structure otel_process_ctx_state where
  publisher_pid : Nat
  mapping : MappingPtr
  payload : Option (List Nat)
deriving DecidableEq

/-- The all-zero initial value of the singleton `published_state` (line 103),
also what `otel_process_ctx_drop_current` resets it to (line 223). -/
def zero_state : otel_process_ctx_state := ⟨0, .null, none⟩

/-- `ctx_is_published` (lines 114-116): mapping not NULL, not `MAP_FAILED`,
and the current pid equals the publisher pid. -/
def ctx_is_published (state : otel_process_ctx_state) (pid : Nat) : Bool :=
  (match state.mapping with
   | .mapped _ => true
   | _ => false) && pid == state.publisher_pid

/-- `otel_process_ctx_result` from otel_process_ctx.h. -/
structure otel_process_ctx_result where
  success : Bool
  error_message : Option String
deriving DecidableEq

/-- Outcome of a publish/update call: the C result, the final singleton
state, the heap buffers freed during the call (a `free(NULL)` is skipped),
and the successive values of the shared header in store order (empty when no
mapping exists). -/
structure op_outcome where
  result : otel_process_ctx_result
  state : otel_process_ctx_state
  freed : List (List Nat)
  trace : List otel_process_ctx_mapping
deriving DecidableEq

/-- Outcome of `otel_process_ctx_drop_current`: return value, final
singleton state, freed heap buffers, and whether `munmap` was invoked. -/
structure drop_outcome where
  success : Bool
  state : otel_process_ctx_state
  freed : List (List Nat)
  unmapped : Bool
deriving DecidableEq

/-- `otel_process_ctx_drop_current` (lines 219-238): snapshot the singleton,
zero it under a fence, `munmap` one header only when the snapshot was
published by this process (`munmap_ok` is the syscall's success), and free
the snapshot's payload unconditionally. -/
def otel_process_ctx_drop_current (st : otel_process_ctx_state) (pid : Nat)
    (munmap_ok : Bool) : drop_outcome :=
  let state := st
  let success := if ctx_is_published state pid then munmap_ok else true
  ⟨success, zero_state, state.payload.toList, ctx_is_published state pid⟩

/-- `otel_process_ctx_update` (lines 240-282).  On success the header goes
through the source's store sequence: timestamp := 0, fence, payload size,
payload pointer, fence, timestamp := `published_at_ns`; the old heap payload
is freed last and the singleton keeps the new payload. -/
def otel_process_ctx_update (published_at_ns : Nat)
    (data : Option otel_process_ctx_data) (pid : Nat)
    (st : otel_process_ctx_state) : op_outcome :=
  match data, st.mapping with
  | some d, .mapped hdr =>
    if pid = st.publisher_pid then
      match otel_process_ctx_encode_protobuf_payload d with
      | .error msg => ⟨⟨false, some msg⟩, st, [], [hdr]⟩
      | .ok (payload, payload_size) =>
        let h1 := { hdr with otel_process_ctx_published_at_ns := 0 }
        let h2 := { h1 with otel_process_payload_size := payload_size }
        let h3 := { h2 with otel_process_payload := payload }
        let h4 := { h3 with otel_process_ctx_published_at_ns := published_at_ns }
        ⟨⟨true, none⟩,
         { st with mapping := .mapped h4, payload := some payload },
         st.payload.toList,
         [hdr, h1, h2, h3, h4]⟩
    else
      ⟨⟨false, some "Unexpected: otel_process_ctx_data is NULL or context is not published (otel_process_ctx.c:242)"⟩,
       st, [], []⟩
  | _, _ =>
    ⟨⟨false, some "Unexpected: otel_process_ctx_data is NULL or context is not published (otel_process_ctx.c:242)"⟩,
     st, [], []⟩

/-- Results of the syscalls `otel_process_ctx_publish` makes, passed as an
oracle: the `clock_gettime` timestamp and the success of `memfd_create`,
`ftruncate`, `mmap`, `close`, `madvise`, and of any `munmap` issued by an
inner `otel_process_ctx_drop_current`. -/
structure publish_env where
  now : Nat
  memfd_ok : Bool
  ftruncate_ok : Bool
  mmap_ok : Bool
  close_ok : Bool
  madvise_ok : Bool
  munmap_ok : Bool
deriving DecidableEq

/-- A freshly `mmap`ed header region: all bytes zero (NULL payload pointer is
the empty buffer in the model). -/
def zero_mapping_header : otel_process_ctx_mapping :=
  ⟨List.replicate 8 0, 0, 0, 0, []⟩

/-- The 8 signature bytes `OTEL_CTX` (line 30). -/
def otel_ctx_signature_bytes : List Nat := strBytes "OTEL_CTX"

/-- `otel_process_ctx_publish` (lines 120-217): guards, delegation to
`otel_process_ctx_update` when already published by this process, otherwise
drop previous state, encode, record the publisher pid, create and map the
region (memfd path or anonymous fallback), `madvise(MADV_DONTFORK)`, fill
the header with a zero signature, fence, and commit by storing the
signature.  The best-effort `prctl` naming (line 203) has no modelled
effect. -/
def otel_process_ctx_publish (data : Option otel_process_ctx_data) (pid : Nat)
    (env : publish_env) (st : otel_process_ctx_state) : op_outcome :=
  match data with
  | none => ⟨⟨false, some "otel_process_ctx_data is NULL (otel_process_ctx.c:121)"⟩, st, [], []⟩
  | some d =>
    if env.now = 0 then
      ⟨⟨false, some "Failed to get current time (otel_process_ctx.c:125)"⟩, st, [], []⟩
    else if ctx_is_published st pid then
      otel_process_ctx_update env.now (some d) pid st
    else
      let drop1 := otel_process_ctx_drop_current st pid env.munmap_ok
      if !drop1.success then
        ⟨⟨false, some "Failed to drop previous context (otel_process_ctx.c:134)"⟩,
         drop1.state, drop1.freed, []⟩
      else
        match otel_process_ctx_encode_protobuf_payload d with
        | .error msg => ⟨⟨false, some msg⟩, drop1.state, drop1.freed, []⟩
        | .ok (payload, payload_size) =>
          let st1 : otel_process_ctx_state :=
            { drop1.state with payload := some payload, publisher_pid := pid }
          if env.memfd_ok && !env.ftruncate_ok then
            let drop2 := otel_process_ctx_drop_current st1 pid env.munmap_ok
            ⟨⟨false, some "Failed to truncate memfd (otel_process_ctx.c:152)"⟩,
             drop2.state, drop1.freed ++ drop2.freed, []⟩
          else
            let mapping := if env.mmap_ok then MappingPtr.mapped zero_mapping_header
                           else MappingPtr.map_failed
            let failed_to_close_fd := env.memfd_ok && !env.close_ok
            let st2 := { st1 with mapping := mapping }
            if mapping = MappingPtr.map_failed || failed_to_close_fd then
              let drop2 := otel_process_ctx_drop_current st2 pid env.munmap_ok
              if failed_to_close_fd then
                ⟨⟨false, some "Failed to close memfd (otel_process_ctx.c:164)"⟩,
                 drop2.state, drop1.freed ++ drop2.freed, []⟩
              else
                ⟨⟨false, some "Failed to allocate mapping (otel_process_ctx.c:166)"⟩,
                 drop2.state, drop1.freed ++ drop2.freed, []⟩
            else if !env.madvise_ok then
              let drop2 := otel_process_ctx_drop_current st2 pid env.munmap_ok
              if drop2.success then
                ⟨⟨false, some "Failed to setup MADV_DONTFORK (otel_process_ctx.c:174)"⟩,
                 drop2.state, drop1.freed ++ drop2.freed, []⟩
              else
                ⟨⟨false, some "Failed to drop context (otel_process_ctx.c:176)"⟩,
                 drop2.state, drop1.freed ++ drop2.freed, []⟩
            else
              let h1 : otel_process_ctx_mapping :=
                ⟨List.replicate 8 0, 2, payload_size, env.now, payload⟩
              let h2 := { h1 with otel_process_ctx_signature := otel_ctx_signature_bytes }
              ⟨⟨true, none⟩, { st2 with mapping := .mapped h2 }, drop1.freed,
               [zero_mapping_header, h1, h2]⟩

/-- `otel_process_ctx_read_result` from otel_process_ctx.h. -/
structure otel_process_ctx_read_result where
  success : Bool
  error_message : Option String
  data : otel_process_ctx_data
deriving DecidableEq

/-- Flattening of a pair list, matching the NULL-terminated resource array
layout that `otel_process_ctx_read_data_drop` walks. -/
def pairsFlatten : List (List Nat × List Nat) → List (List Nat)
  | [] => []
  | (k, v) :: rest => k :: v :: pairsFlatten rest

/-- What `otel_process_ctx_read_data_drop` frees: the string buffers in free
order, and whether the resource array itself was freed. -/
structure read_data_drop_effect where
  freed_strings : List (List Nat)
  freed_resources_array : Bool
deriving DecidableEq

/-- `otel_process_ctx_read_data_drop` (lines 575-587): free each non-NULL
string field, then every entry of the resource array up to its NULL
terminator, then the array itself when non-NULL. -/
def otel_process_ctx_read_data_drop (data : otel_process_ctx_data) :
    read_data_drop_effect :=
  ⟨data.deployment_environment_name.toList ++ data.service_instance_id.toList ++
   data.service_name.toList ++ data.service_version.toList ++
   data.telemetry_sdk_language.toList ++ data.telemetry_sdk_version.toList ++
   data.telemetry_sdk_name.toList ++
   (match data.resources with
    | some rs => pairsFlatten rs
    | none => []),
   data.resources.isSome⟩

/-- `otel_process_ctx_read_drop` (lines 621-626): NULL or unsuccessful
results return `false` untouched; a successful result has its data freed and
is overwritten with the "Data dropped" failure result around `empty_data`.
Returns (return value, result object afterwards, drop effect if any). -/
def otel_process_ctx_read_drop (result : Option otel_process_ctx_read_result) :
    Bool × Option otel_process_ctx_read_result × Option read_data_drop_effect :=
  match result with
  | none => (false, none, none)
  | some r =>
    if !r.success then (false, some r, none)
    else (true, some ⟨false, some "Data dropped", empty_data⟩,
          some (otel_process_ctx_read_data_drop r.data))

/-- Specification-side abstraction of the decoder's progress, following the
words of the claim on decode rejection: which of the seven required identity
keys have been seen, and how many unknown-key resource pairs occurred. -/
structure payload_check_state where
  deployment_environment_name_found : Bool
  service_instance_id_found : Bool
  service_name_found : Bool
  service_version_found : Bool
  telemetry_sdk_language_found : Bool
  telemetry_sdk_version_found : Bool
  telemetry_sdk_name_found : Bool
  resource_pairs : Nat
deriving DecidableEq

/-- Specification-side dispatch, following the claim: a known identity key
marks that key as present; an unknown key is one more resource pair, and the
payload is rejected when more than 100 unknown-key resource pairs occur. -/
def check_dispatch (c : payload_check_state) (key : List Nat) :
    Option payload_check_state :=
  if key = strBytes "deployment.environment.name" then
    some { c with deployment_environment_name_found := true }
  else if key = strBytes "service.instance.id" then
    some { c with service_instance_id_found := true }
  else if key = strBytes "service.name" then
    some { c with service_name_found := true }
  else if key = strBytes "service.version" then
    some { c with service_version_found := true }
  else if key = strBytes "telemetry.sdk.language" then
    some { c with telemetry_sdk_language_found := true }
  else if key = strBytes "telemetry.sdk.version" then
    some { c with telemetry_sdk_version_found := true }
  else if key = strBytes "telemetry.sdk.name" then
    some { c with telemetry_sdk_name_found := true }
  else if c.resource_pairs ≥ 100 then none
  else some { c with resource_pairs := c.resource_pairs + 1 }

/-- Specification-side record scan, following the claim's enumerated
per-record conditions: every tag LEN, every top-level field number 1, every
varint in range and in bounds, every record in bounds, every KeyValue with a
key and a value (via the shared byte-level readers, which are the claim's
restricted format). -/
def check_records :
    Nat → List Nat → payload_check_state → Option payload_check_state
  | 0, _, _ => none
  | _ + 1, [], c => some c
  | fuel + 1, tagByte :: rest0, c =>
    match read_protobuf_tag (tagByte :: rest0) with
    | none => none
    | some (field_number, rest) =>
      if field_number ≠ 1 then none
      else
        match read_protobuf_varint rest with
        | none => none
        | some (kv_len, rest2) =>
          if kv_len > rest2.length then none
          else
            match parse_keyvalue (kv_len + 1) (rest2.take kv_len) none none with
            | none => none
            | some (k, _) =>
              match check_dispatch c (cstr k) with
              | none => none
              | some c2 => check_records fuel (rest2.drop kv_len) c2

/-- Initial check state: no identity key seen, no resource pairs. -/
def check_init : payload_check_state :=
  ⟨false, false, false, false, false, false, false, 0⟩

/-- Specification-side statement of "the payload deviates from the encoder's
restricted format", assembled from the claim's enumerated conditions: a
malformed record scan, or one of the seven required identity keys absent
from the whole payload. -/
def payload_deviates (payload : List Nat) : Bool :=
  match check_records (payload.length + 1) payload check_init with
  | none => true
  | some c =>
    !(c.deployment_environment_name_found && c.service_instance_id_found &&
      c.service_name_found && c.service_version_found &&
      c.telemetry_sdk_language_found && c.telemetry_sdk_version_found &&
      c.telemetry_sdk_name_found)

/-- A byte list that corresponds to a C string within the encoder's limits:
at most 4096 bytes, no NUL (a NUL would end the C string early) and every
byte below 256. -/
def ValidStr (s : List Nat) : Prop :=
  s.length ≤ 4096 ∧ ∀ b ∈ s, 0 < b ∧ b < 256

instance (s : List Nat) : Decidable (ValidStr s) := by
  unfold ValidStr
  infer_instance

/-- The seven required identity keys, in encoder order. -/
def identity_keys : List (List Nat) :=
  [strBytes "deployment.environment.name", strBytes "service.instance.id",
   strBytes "service.name", strBytes "service.version",
   strBytes "telemetry.sdk.language", strBytes "telemetry.sdk.version",
   strBytes "telemetry.sdk.name"]

/-- The bytes `write_attribute` emits after the KeyValue record tag and
length varint (proof-local regrouping of the same writes). -/
def write_keyvalue_payload (key value : List Nat) : List Nat :=
  write_protobuf_tag 1 ++ write_protobuf_string key ++
  write_protobuf_tag 2 ++ write_protobuf_varint (protobuf_string_size value) ++
  write_protobuf_tag 1 ++ write_protobuf_string value

/-- Folding the decoder's key dispatch over a list of already-read
key/value pairs. -/
def dispatch_fold :
    otel_process_ctx_data → List (List Nat × List Nat) → Option otel_process_ctx_data
  | acc, [] => some acc
  | acc, (k, v) :: rest =>
    match dispatch_keyvalue acc k v with
    | none => none
    | some acc2 => dispatch_fold acc2 rest

/-- Relation between a decoder accumulator and the specification-side check
state: a found flag per identity field, and the stored resource pair count. -/
def accRel (acc : otel_process_ctx_data) (c : payload_check_state) : Prop :=
  acc.deployment_environment_name.isSome = c.deployment_environment_name_found ∧
  acc.service_instance_id.isSome = c.service_instance_id_found ∧
  acc.service_name.isSome = c.service_name_found ∧
  acc.service_version.isSome = c.service_version_found ∧
  acc.telemetry_sdk_language.isSome = c.telemetry_sdk_language_found ∧
  acc.telemetry_sdk_version.isSome = c.telemetry_sdk_version_found ∧
  acc.telemetry_sdk_name.isSome = c.telemetry_sdk_name_found ∧
  (acc.resources.getD []).length = c.resource_pairs

/-- Lifts a relation to `Option`, matching success and failure. -/
inductive OptionRel (R : α → β → Prop) : Option α → Option β → Prop where
  | none : OptionRel R none none
  | some {a : α} {b : β} : R a b → OptionRel R (some a) (some b)

/-- Encode followed by in-process decode, the round-trip composition. -/
def encode_then_decode (d : otel_process_ctx_data) : Option otel_process_ctx_data :=
  match otel_process_ctx_encode_protobuf_payload d with
  | .ok (p, _) => otel_process_ctx_decode_payload p
  | .error _ => none

/-- Concrete attribute object used by the witnesses (scenario 1 of the
spec). -/
def sample_data : otel_process_ctx_data :=
  ⟨some (strBytes "prod"), some (strBytes "123d8444"), some (strBytes "my-service"),
   some (strBytes "4.5.6"), some (strBytes "c"), some (strBytes "1.2.3"),
   some (strBytes "example_ctx.c"),
   some [(strBytes "resource.key1", strBytes "resource.value1")]⟩

/-- Concrete updated attribute object used by the witnesses (scenario 2 of
the spec). -/
def sample_data2 : otel_process_ctx_data :=
  ⟨some (strBytes "staging"), some (strBytes "456d8444"), some (strBytes "my-service-updated"),
   some (strBytes "7.8.9"), some (strBytes "c"), some (strBytes "1.2.3"),
   some (strBytes "example_ctx.c"), none⟩

/-- Concrete attribute object whose `service.name` value is 4097 bytes, so
encoding fails on the length limit. -/
def sample_long_data : otel_process_ctx_data :=
  ⟨some (strBytes "prod"), some (strBytes "123d8444"), some (List.replicate 4097 97),
   some (strBytes "4.5.6"), some (strBytes "c"), some (strBytes "1.2.3"),
   some (strBytes "example_ctx.c"), none⟩

/-- Concrete attribute object whose resource list reuses the identity key
`service.name`, the round-trip counterexample input. -/
def collision_data : otel_process_ctx_data :=
  ⟨some (strBytes "prod"), some (strBytes "123d8444"), some (strBytes "my-service"),
   some (strBytes "4.5.6"), some (strBytes "c"), some (strBytes "1.2.3"),
   some (strBytes "example_ctx.c"),
   some [(strBytes "service.name", strBytes "x")]⟩

/-- Encoded payload of `sample_data`. -/
def sample_payload : List Nat :=
  match otel_process_ctx_encode_protobuf_payload sample_data with
  | .ok (p, _) => p
  | .error _ => []

/-- Encoded payload size of `sample_data`. -/
def sample_payload_size : Nat :=
  match otel_process_ctx_encode_protobuf_payload sample_data with
  | .ok (_, sz) => sz
  | .error _ => 0

/-- Encoded payload of `sample_data2`. -/
def sample2_payload : List Nat :=
  match otel_process_ctx_encode_protobuf_payload sample_data2 with
  | .ok (p, _) => p
  | .error _ => []

/-- Encoded payload size of `sample_data2`. -/
def sample2_payload_size : Nat :=
  match otel_process_ctx_encode_protobuf_payload sample_data2 with
  | .ok (_, sz) => sz
  | .error _ => 0

/-- The header of a context published at pid 1, timestamp 42, holding
`sample_data`. -/
def sample_hdr : otel_process_ctx_mapping :=
  ⟨otel_ctx_signature_bytes, 2, sample_payload_size, 42, sample_payload⟩

/-- The singleton state after publishing `sample_data` from pid 1. -/
def sample_pub_state : otel_process_ctx_state :=
  ⟨1, .mapped sample_hdr, some sample_payload⟩

/-- An all-successful syscall oracle with timestamp 77. -/
def sample_env : publish_env := ⟨77, true, true, true, true, true, true⟩

/-- Whether encoding succeeds (a payload buffer is produced). -/
def encode_ok (d : otel_process_ctx_data) : Bool :=
  match otel_process_ctx_encode_protobuf_payload d with
  | .ok _ => true
  | .error _ => false

/-! Helper lemmas about the codec. -/

theorem protobuf_varint_size_le_two (v : Nat) : protobuf_varint_size v ≤ 2 := by
  unfold protobuf_varint_size
  split <;> omega

theorem protobuf_varint_size_pos (v : Nat) : 1 ≤ protobuf_varint_size v := by
  unfold protobuf_varint_size
  split <;> omega

theorem protobuf_string_size_le (s : List Nat) (h : s.length ≤ 4096) :
    protobuf_string_size s ≤ 4099 := by
  unfold protobuf_string_size protobuf_record_size
  have := protobuf_varint_size_le_two s.length
  omega

theorem protobuf_keyvalue_size_le (k v : List Nat)
    (hk : k.length ≤ 4096) (hv : v.length ≤ 4096) :
    protobuf_otel_keyvalue_string_size k v ≤ 8201 := by
  unfold protobuf_otel_keyvalue_string_size
  have h1 := protobuf_string_size_le k hk
  have h2 := protobuf_string_size_le v hv
  unfold protobuf_record_size
  have := protobuf_varint_size_le_two (protobuf_string_size v)
  omega

theorem protobuf_keyvalue_size_ge (k v : List Nat) :
    4 ≤ protobuf_otel_keyvalue_string_size k v := by
  unfold protobuf_otel_keyvalue_string_size protobuf_string_size protobuf_record_size
  have h1 := protobuf_varint_size_pos k.length
  have h2 := protobuf_varint_size_pos v.length
  have h3 := protobuf_varint_size_pos (1 + protobuf_varint_size v.length + v.length)
  omega

theorem write_protobuf_varint_length (v : Nat) (h : v < 65536) :
    (write_protobuf_varint v).length = protobuf_varint_size v := by
  simp only [write_protobuf_varint, protobuf_varint_size, Nat.mod_eq_of_lt h]
  split_ifs <;> simp_all

theorem read_write_varint (v : Nat) (rest : List Nat) (h : v ≤ UINT14_MAX) :
    read_protobuf_varint (write_protobuf_varint v ++ rest) = some (v, rest) := by
  unfold UINT14_MAX at h
  have hv16 : v % 65536 = v := Nat.mod_eq_of_lt (by omega)
  by_cases h128 : v < 128
  · simp only [write_protobuf_varint, protobuf_varint_size, hv16]
    rw [if_pos (by rw [if_neg (by omega)])]
    simp only [List.cons_append, List.nil_append, read_protobuf_varint, if_pos h128]
  · have hdiv : v / 128 % 256 = v / 128 := by omega
    simp only [write_protobuf_varint, protobuf_varint_size, hv16]
    rw [if_neg (by rw [if_pos (by omega)]; omega)]
    simp only [List.cons_append, List.nil_append, read_protobuf_varint, hdiv]
    rw [if_neg (by omega)]
    have hval : (v % 128 + 128) % 128 + v / 128 * 128 = v := by omega
    simp only [hval]
    rw [if_pos (by unfold UINT14_MAX; omega)]

theorem read_write_string (s : List Nat) (rest : List Nat) (h : s.length ≤ 4096) :
    read_protobuf_string (write_protobuf_string s ++ rest) = some (s, rest) := by
  unfold write_protobuf_string read_protobuf_string
  rw [List.append_assoc,
    read_write_varint s.length (s ++ rest) (by unfold UINT14_MAX; omega)]
  simp only
  rw [if_neg (by unfold KEY_VALUE_LIMIT; omega)]
  rw [if_neg (by simp only [List.length_append]; omega)]
  rw [List.take_left' rfl, List.drop_left' rfl]

theorem write_attribute_eq (key value : List Nat) :
    write_attribute key value =
      write_protobuf_tag 1 ++
      write_protobuf_varint (protobuf_otel_keyvalue_string_size key value) ++
      write_keyvalue_payload key value := by
  unfold write_attribute write_keyvalue_payload
  simp [List.append_assoc]

theorem write_keyvalue_payload_length (key value : List Nat)
    (hk : key.length ≤ 4096) (hv : value.length ≤ 4096) :
    (write_keyvalue_payload key value).length =
      protobuf_otel_keyvalue_string_size key value := by
  unfold write_keyvalue_payload write_protobuf_string write_protobuf_tag
  unfold protobuf_otel_keyvalue_string_size protobuf_string_size protobuf_record_size
  have hssv := protobuf_string_size_le value hv
  unfold protobuf_string_size protobuf_record_size at hssv
  simp only [List.length_append, List.length_cons, List.length_nil]
  rw [write_protobuf_varint_length key.length (by omega),
    write_protobuf_varint_length value.length (by omega),
    write_protobuf_varint_length (1 + protobuf_varint_size value.length + value.length)
      (by omega)]
  omega

theorem write_attribute_length (key value : List Nat)
    (hk : key.length ≤ 4096) (hv : value.length ≤ 4096) :
    (write_attribute key value).length =
      protobuf_record_size (protobuf_otel_keyvalue_string_size key value) := by
  rw [write_attribute_eq]
  have hkv := protobuf_keyvalue_size_le key value hk hv
  simp only [List.length_append, write_protobuf_tag, List.length_cons, List.length_nil]
  rw [write_protobuf_varint_length _ (by omega),
    write_keyvalue_payload_length key value hk hv]
  unfold protobuf_record_size
  omega

theorem validate_ok_bounds (ps : List (List Nat × List Nat)) (sz : Nat)
    (h : validate_and_calculate_protobuf_payload_size ps = .ok sz) :
    ∀ p ∈ ps, p.1.length ≤ 4096 ∧ p.2.length ≤ 4096 := by
  induction ps generalizing sz with
  | nil => intro p hp; cases hp
  | cons hd tl ih =>
    obtain ⟨k, v⟩ := hd
    unfold validate_and_calculate_protobuf_payload_size at h
    unfold KEY_VALUE_LIMIT at h
    by_cases h1 : k.length > 4096
    · rw [if_pos h1] at h; cases h
    · rw [if_neg h1] at h
      by_cases h2 : v.length > 4096
      · rw [if_pos h2] at h; cases h
      · rw [if_neg h2] at h
        intro p hp
        cases hp with
        | head => exact ⟨(by omega : k.length ≤ 4096), (by omega : v.length ≤ 4096)⟩
        | tail _ hmem =>
          cases htl : validate_and_calculate_protobuf_payload_size tl with
          | error msg => rw [htl] at h; cases h
          | ok m => exact ih m htl p hmem

theorem validate_ok_of_bounds (ps : List (List Nat × List Nat))
    (h : ∀ p ∈ ps, p.1.length ≤ 4096 ∧ p.2.length ≤ 4096) :
    ∃ sz, validate_and_calculate_protobuf_payload_size ps = .ok sz := by
  induction ps with
  | nil => exact ⟨0, rfl⟩
  | cons hd tl ih =>
    obtain ⟨k, v⟩ := hd
    have hk : k.length ≤ 4096 := (h (k, v) (List.mem_cons_self _ _)).1
    have hv : v.length ≤ 4096 := (h (k, v) (List.mem_cons_self _ _)).2
    obtain ⟨m, hm⟩ := ih (fun p hp => h p (List.mem_cons_of_mem _ hp))
    refine ⟨protobuf_record_size (protobuf_otel_keyvalue_string_size k v) + m, ?_⟩
    unfold validate_and_calculate_protobuf_payload_size
    unfold KEY_VALUE_LIMIT
    rw [if_neg (by omega), if_neg (by omega), hm]

theorem validate_error_of_over (ps : List (List Nat × List Nat))
    (h : ∃ p ∈ ps, 4096 < p.1.length ∨ 4096 < p.2.length) :
    ∃ msg, validate_and_calculate_protobuf_payload_size ps = .error msg := by
  induction ps with
  | nil => simp at h
  | cons hd tl ih =>
    obtain ⟨k, v⟩ := hd
    unfold validate_and_calculate_protobuf_payload_size
    unfold KEY_VALUE_LIMIT
    by_cases h1 : k.length > 4096
    · exact ⟨_, by rw [if_pos h1]⟩
    · rw [if_neg h1]
      by_cases h2 : v.length > 4096
      · exact ⟨_, by rw [if_pos h2]⟩
      · rw [if_neg h2]
        obtain ⟨p, hp, hover⟩ := h
        cases hp with
        | head =>
          have hover2 : 4096 < k.length ∨ 4096 < v.length := hover
          omega
        | tail _ hmem =>
          obtain ⟨msg, hmsg⟩ := ih ⟨p, hmem, hover⟩
          exact ⟨msg, by rw [hmsg]⟩

theorem validate_error_messages (ps : List (List Nat × List Nat)) (msg : String)
    (h : validate_and_calculate_protobuf_payload_size ps = .error msg) :
    msg = "Length of key in otel_process_ctx_data exceeds 4096 limit (otel_process_ctx.c:312)" ∨
    msg = "Length of value in otel_process_ctx_data exceeds 4096 limit (otel_process_ctx.c:315)" := by
  induction ps generalizing msg with
  | nil => cases h
  | cons hd tl ih =>
    obtain ⟨k, v⟩ := hd
    unfold validate_and_calculate_protobuf_payload_size at h
    split at h
    · left; cases h; rfl
    · split at h
      · right; cases h; rfl
      · split at h
        · cases h; exact ih _ (by assumption)
        · cases h

theorem write_attributes_length (ps : List (List Nat × List Nat)) (sz : Nat)
    (h : validate_and_calculate_protobuf_payload_size ps = .ok sz) :
    (write_attributes ps).length = sz := by
  induction ps generalizing sz with
  | nil => cases h; rfl
  | cons hd tl ih =>
    obtain ⟨k, v⟩ := hd
    have hb := validate_ok_bounds _ _ h (k, v) (List.mem_cons_self _ _)
    have hbk : k.length ≤ 4096 := hb.1
    have hbv : v.length ≤ 4096 := hb.2
    unfold validate_and_calculate_protobuf_payload_size at h
    unfold KEY_VALUE_LIMIT at h
    rw [if_neg (by omega), if_neg (by omega)] at h
    cases htl : validate_and_calculate_protobuf_payload_size tl with
    | error msg => rw [htl] at h; cases h
    | ok m =>
      rw [htl] at h
      cases h
      unfold write_attributes
      simp only [List.length_append]
      rw [write_attribute_length k v (by omega) (by omega), ih m htl]

/-! Claim theorems about the codec sizes. -/

/-- C7: for key and value strings of at most 4096 bytes, every length the
encoder emits as a varint — the key length, the value length, the AnyValue
record size, and the composed KeyValue record size — is at most 16383, so
the 1-or-2-byte varint encoding never truncates: reading back a written
varint of any value up to 16383 returns that value exactly. -/
theorem varint_lengths_fit_14_bits (key value : List Nat)
    (hk : key.length ≤ 4096) (hv : value.length ≤ 4096) :
    key.length ≤ UINT14_MAX ∧ value.length ≤ UINT14_MAX ∧
    protobuf_string_size value ≤ UINT14_MAX ∧
    protobuf_otel_keyvalue_string_size key value ≤ UINT14_MAX ∧
    ∀ len rest, len ≤ UINT14_MAX →
      read_protobuf_varint (write_protobuf_varint len ++ rest) = some (len, rest) := by
  refine ⟨?_, ?_, ?_, ?_, fun len rest hlen => read_write_varint len rest hlen⟩
  · unfold UINT14_MAX; omega
  · unfold UINT14_MAX; omega
  · have := protobuf_string_size_le value hv
    unfold UINT14_MAX; omega
  · have := protobuf_keyvalue_size_le key value hk hv
    unfold UINT14_MAX; omega

/-- Concrete instance of `varint_lengths_fit_14_bits` at maximal 4096-byte
key and value strings. -/
theorem varint_lengths_fit_14_bits_witness :
    protobuf_otel_keyvalue_string_size (List.replicate 4096 107) (List.replicate 4096 118) ≤
      UINT14_MAX :=
  (varint_lengths_fit_14_bits (List.replicate 4096 107) (List.replicate 4096 118)
    (by rw [List.length_replicate]) (by rw [List.length_replicate])).2.2.2.1

/-- C9: whenever encoding succeeds, the emitted byte buffer's length is
exactly the total computed by the validation/size pre-pass (identity pairs
plus resource pairs), and the reported `out_size` is its `uint32` cast — the
emit pass fills the `calloc`ed buffer exactly, with no write outside it and
no gap before its end. -/
theorem encoder_size_prepass_agrees
    (e i n v lang sv sn : List Nat) (rs? : Option (List (List Nat × List Nat)))
    (payload : List Nat) (out_size : Nat)
    (henc : otel_process_ctx_encode_protobuf_payload
        ⟨some e, some i, some n, some v, some lang, some sv, some sn, rs?⟩ =
        .ok (payload, out_size)) :
    ∃ pairs_size resources_pairs_size,
      validate_and_calculate_protobuf_payload_size (identity_pairs e i n v lang sv sn) =
        .ok pairs_size ∧
      (match rs? with
       | some rs => validate_and_calculate_protobuf_payload_size rs
       | none => .ok 0) = .ok resources_pairs_size ∧
      payload.length = pairs_size + resources_pairs_size ∧
      out_size = (pairs_size + resources_pairs_size) % 4294967296 := by
  unfold otel_process_ctx_encode_protobuf_payload at henc
  simp only at henc
  cases hid : validate_and_calculate_protobuf_payload_size (identity_pairs e i n v lang sv sn) with
  | error msg => rw [hid] at henc; cases henc
  | ok n1 =>
    rw [hid] at henc
    simp only at henc
    cases rs? with
    | none =>
      simp only at henc
      injection henc with henc
      injection henc with hpay hsz
      refine ⟨n1, 0, rfl, rfl, ?_, hsz.symm⟩
      rw [← hpay]
      simp only [List.length_append, Option.getD_none]
      rw [write_attributes_length _ _ hid]
      simp [write_attributes]
    | some rs =>
      simp only at henc
      cases h2 : validate_and_calculate_protobuf_payload_size rs with
      | error m => rw [h2] at henc; cases henc
      | ok n2 =>
        rw [h2] at henc
        injection henc with henc
        injection henc with hpay hsz
        refine ⟨n1, n2, rfl, h2, ?_, hsz.symm⟩
        rw [← hpay]
        simp only [List.length_append, Option.getD_some]
        rw [write_attributes_length _ _ hid, write_attributes_length _ _ h2]

/-- Concrete consequence of `encoder_size_prepass_agrees` at `sample_data2`:
the emitted buffer length reduced mod 2^32 is the reported size. -/
theorem encoder_size_prepass_agrees_witness :
    sample2_payload.length % 4294967296 = sample2_payload_size := by
  obtain ⟨n1, n2, _, _, hlen, hsz⟩ :=
    encoder_size_prepass_agrees (strBytes "staging") (strBytes "456d8444")
      (strBytes "my-service-updated") (strBytes "7.8.9") (strBytes "c")
      (strBytes "1.2.3") (strBytes "example_ctx.c") none
      sample2_payload sample2_payload_size rfl
  rw [hlen, hsz]

/-- C6: encoding succeeds whenever all identity values and resource strings
are at most 4096 bytes; if any value or resource string has length 4097,
encoding fails with a message containing "exceeds 4096 limit" (the `.error`
result carries no payload buffer). -/
theorem encode_succeeds_at_4096_fails_at_4097
    (e i n v lang sv sn : List Nat) (rs? : Option (List (List Nat × List Nat))) :
    ((e.length ≤ 4096 ∧ i.length ≤ 4096 ∧ n.length ≤ 4096 ∧ v.length ≤ 4096 ∧
      lang.length ≤ 4096 ∧ sv.length ≤ 4096 ∧ sn.length ≤ 4096 ∧
      (∀ p ∈ rs?.getD [], p.1.length ≤ 4096 ∧ p.2.length ≤ 4096)) →
      ∃ payload out_size,
        otel_process_ctx_encode_protobuf_payload
          ⟨some e, some i, some n, some v, some lang, some sv, some sn, rs?⟩ =
          .ok (payload, out_size))
  ∧ ((e.length = 4097 ∨ i.length = 4097 ∨ n.length = 4097 ∨ v.length = 4097 ∨
      lang.length = 4097 ∨ sv.length = 4097 ∨ sn.length = 4097 ∨
      (∃ p ∈ rs?.getD [], p.1.length = 4097 ∨ p.2.length = 4097)) →
      ∃ msg pre post,
        otel_process_ctx_encode_protobuf_payload
          ⟨some e, some i, some n, some v, some lang, some sv, some sn, rs?⟩ =
          .error msg ∧
        msg = pre ++ "exceeds 4096 limit" ++ post) := by
  constructor
  · rintro ⟨he, hi, hn, hv, hlang, hsv, hsn, hres⟩
    have hidb : ∀ p ∈ identity_pairs e i n v lang sv sn,
        p.1.length ≤ 4096 ∧ p.2.length ≤ 4096 := by
      intro p hp
      simp only [identity_pairs, List.mem_cons, List.not_mem_nil, or_false] at hp
      rcases hp with h | h | h | h | h | h | h
      · subst h
        exact ⟨(by decide : (strBytes "deployment.environment.name").length ≤ 4096), he⟩
      · subst h
        exact ⟨(by decide : (strBytes "service.instance.id").length ≤ 4096), hi⟩
      · subst h
        exact ⟨(by decide : (strBytes "service.name").length ≤ 4096), hn⟩
      · subst h
        exact ⟨(by decide : (strBytes "service.version").length ≤ 4096), hv⟩
      · subst h
        exact ⟨(by decide : (strBytes "telemetry.sdk.language").length ≤ 4096), hlang⟩
      · subst h
        exact ⟨(by decide : (strBytes "telemetry.sdk.version").length ≤ 4096), hsv⟩
      · subst h
        exact ⟨(by decide : (strBytes "telemetry.sdk.name").length ≤ 4096), hsn⟩
    obtain ⟨n1, h1⟩ := validate_ok_of_bounds _ hidb
    have hresv : ∃ n2, (match rs? with
        | some rs => validate_and_calculate_protobuf_payload_size rs
        | none => .ok 0 : Except String Nat) = .ok n2 := by
      cases rs? with
      | none => exact ⟨0, rfl⟩
      | some rs =>
        obtain ⟨n2, h2⟩ := validate_ok_of_bounds rs (by simpa using hres)
        exact ⟨n2, h2⟩
    obtain ⟨n2, h2⟩ := hresv
    refine ⟨write_attributes (identity_pairs e i n v lang sv sn) ++
        write_attributes (rs?.getD []), (n1 + n2) % 4294967296, ?_⟩
    unfold otel_process_ctx_encode_protobuf_payload
    simp only
    rw [h1, h2]
  · intro hbad
    have finish : ∀ msg, otel_process_ctx_encode_protobuf_payload
          ⟨some e, some i, some n, some v, some lang, some sv, some sn, rs?⟩ =
          .error msg →
        (msg = "Length of key in otel_process_ctx_data exceeds 4096 limit (otel_process_ctx.c:312)" ∨
         msg = "Length of value in otel_process_ctx_data exceeds 4096 limit (otel_process_ctx.c:315)") →
        ∃ msg2 pre post,
          otel_process_ctx_encode_protobuf_payload
            ⟨some e, some i, some n, some v, some lang, some sv, some sn, rs?⟩ =
            .error msg2 ∧
          msg2 = pre ++ "exceeds 4096 limit" ++ post := by
      rintro msg hmsg (h | h) <;> subst h
      · exact ⟨_, "Length of key in otel_process_ctx_data ",
          " (otel_process_ctx.c:312)", hmsg, rfl⟩
      · exact ⟨_, "Length of value in otel_process_ctx_data ",
          " (otel_process_ctx.c:315)", hmsg, rfl⟩
    cases hid : validate_and_calculate_protobuf_payload_size (identity_pairs e i n v lang sv sn) with
    | error msg =>
      refine finish msg ?_ (validate_error_messages _ _ hid)
      unfold otel_process_ctx_encode_protobuf_payload
      simp only
      rw [hid]
    | ok n1 =>
      have hidb := validate_ok_bounds _ _ hid
      have he' : e.length ≤ 4096 :=
        (hidb (strBytes "deployment.environment.name", e) (by simp [identity_pairs])).2
      have hi' : i.length ≤ 4096 :=
        (hidb (strBytes "service.instance.id", i) (by simp [identity_pairs])).2
      have hn' : n.length ≤ 4096 :=
        (hidb (strBytes "service.name", n) (by simp [identity_pairs])).2
      have hv' : v.length ≤ 4096 :=
        (hidb (strBytes "service.version", v) (by simp [identity_pairs])).2
      have hlang' : lang.length ≤ 4096 :=
        (hidb (strBytes "telemetry.sdk.language", lang) (by simp [identity_pairs])).2
      have hsv' : sv.length ≤ 4096 :=
        (hidb (strBytes "telemetry.sdk.version", sv) (by simp [identity_pairs])).2
      have hsn' : sn.length ≤ 4096 :=
        (hidb (strBytes "telemetry.sdk.name", sn) (by simp [identity_pairs])).2
      have hover : ∃ p ∈ rs?.getD [], p.1.length = 4097 ∨ p.2.length = 4097 := by
        rcases hbad with h | h | h | h | h | h | h | h
        all_goals first
        | omega
        | exact h
      cases rs? with
      | none => simp at hover
      | some rs =>
        simp only [Option.getD_some] at hover
        obtain ⟨p, hp, hlen⟩ := hover
        obtain ⟨msg, hmsg⟩ := validate_error_of_over rs ⟨p, hp, by omega⟩
        refine finish msg ?_ (validate_error_messages _ _ hmsg)
        unfold otel_process_ctx_encode_protobuf_payload
        simp only
        rw [hid]
        simp only
        rw [hmsg]

/-- Concrete instances of `encode_succeeds_at_4096_fails_at_4097`: encoding
`sample_data` succeeds and encoding `sample_long_data` (a 4097-byte
`service.name`) produces no buffer. -/
theorem encode_succeeds_at_4096_fails_at_4097_witness :
    encode_ok sample_data = true ∧ encode_ok sample_long_data = false := by
  constructor
  · obtain ⟨p, sz, hp⟩ :=
      (encode_succeeds_at_4096_fails_at_4097 (strBytes "prod") (strBytes "123d8444")
        (strBytes "my-service") (strBytes "4.5.6") (strBytes "c") (strBytes "1.2.3")
        (strBytes "example_ctx.c")
        (some [(strBytes "resource.key1", strBytes "resource.value1")])).1
        (by refine ⟨by decide, by decide, by decide, by decide, by decide, by decide, by decide, ?_⟩
            intro q hq
            simp only [Option.getD_some, List.mem_cons, List.not_mem_nil, or_false] at hq
            subst hq
            exact ⟨by decide, by decide⟩)
    unfold encode_ok sample_data
    rw [hp]
  · obtain ⟨msg, pre, post, hmsg, _⟩ :=
      (encode_succeeds_at_4096_fails_at_4097 (strBytes "prod") (strBytes "123d8444")
        (List.replicate 4097 97) (strBytes "4.5.6") (strBytes "c") (strBytes "1.2.3")
        (strBytes "example_ctx.c") none).2
        (Or.inr (Or.inr (Or.inl (by rw [List.length_replicate]))))
    unfold encode_ok sample_long_data
    rw [hmsg]

/-! Claim theorems about the publisher state machine. -/

/-- C1: a successful update stores timestamp 0 first, then (after a fence)
the new payload size and new payload pointer, then (after a second fence)
the new nonzero timestamp; every state of this store sequence with a
nonzero timestamp carries either the old size/pointer pair or the new one,
never a mixed pair, and every intermediate state (between the first and the
last) exposes timestamp 0. -/
theorem update_commit_protocol
    (published_at_ns : Nat) (d : otel_process_ctx_data) (pid : Nat)
    (st : otel_process_ctx_state) (hdr : otel_process_ctx_mapping)
    (payload : List Nat) (payload_size : Nat)
    (hmap : st.mapping = .mapped hdr)
    (hpid : pid = st.publisher_pid)
    (henc : otel_process_ctx_encode_protobuf_payload d = .ok (payload, payload_size))
    (hts : published_at_ns ≠ 0) :
    (otel_process_ctx_update published_at_ns (some d) pid st).trace =
      [hdr,
       { hdr with otel_process_ctx_published_at_ns := 0 },
       { hdr with otel_process_ctx_published_at_ns := 0,
                  otel_process_payload_size := payload_size },
       { hdr with otel_process_ctx_published_at_ns := 0,
                  otel_process_payload_size := payload_size,
                  otel_process_payload := payload },
       { hdr with otel_process_payload_size := payload_size,
                  otel_process_payload := payload,
                  otel_process_ctx_published_at_ns := published_at_ns }]
  ∧ (∀ s ∈ (otel_process_ctx_update published_at_ns (some d) pid st).trace,
       s.otel_process_ctx_published_at_ns ≠ 0 →
         (s.otel_process_payload_size = hdr.otel_process_payload_size ∧
          s.otel_process_payload = hdr.otel_process_payload) ∨
         (s.otel_process_payload_size = payload_size ∧
          s.otel_process_payload = payload))
  ∧ (∀ s ∈ ((otel_process_ctx_update published_at_ns (some d) pid st).trace.drop 1).take 3,
       s.otel_process_ctx_published_at_ns = 0) := by
  obtain ⟨pp, m, pl⟩ := st
  simp only at hmap hpid
  subst hmap
  subst hpid
  unfold otel_process_ctx_update
  simp only [henc, if_true]
  refine ⟨by trivial, ?_, ?_⟩
  · intro s hs hns
    simp only [List.mem_cons, List.not_mem_nil, or_false] at hs
    rcases hs with h | h | h | h | h <;> subst h
    · exact Or.inl ⟨rfl, rfl⟩
    · exact absurd rfl hns
    · exact absurd rfl hns
    · exact absurd rfl hns
    · exact Or.inr ⟨rfl, rfl⟩
  · intro s hs
    simp only [List.drop_succ_cons, List.drop_zero, List.take_succ_cons,
      List.take_zero, List.mem_cons, List.not_mem_nil, or_false] at hs
    rcases hs with h | h | h <;> subst h <;> rfl

/-- Concrete instance of `update_commit_protocol`: the exact five-state
store sequence of updating from `sample_data` to `sample_data2`. -/
theorem update_commit_protocol_witness :
    (otel_process_ctx_update 77 (some sample_data2) 1 sample_pub_state).trace =
      [sample_hdr,
       { sample_hdr with otel_process_ctx_published_at_ns := 0 },
       { sample_hdr with otel_process_ctx_published_at_ns := 0,
                         otel_process_payload_size := sample2_payload_size },
       { sample_hdr with otel_process_ctx_published_at_ns := 0,
                         otel_process_payload_size := sample2_payload_size,
                         otel_process_payload := sample2_payload },
       { sample_hdr with otel_process_payload_size := sample2_payload_size,
                         otel_process_payload := sample2_payload,
                         otel_process_ctx_published_at_ns := 77 }] :=
  (update_commit_protocol 77 sample_data2 1 sample_pub_state sample_hdr
    sample2_payload sample2_payload_size rfl rfl rfl (by omega)).1

/-- C4: when encoding the new payload fails during update, update returns
that failure and changes nothing: the singleton state (and with it the
header: signature, version, timestamp, payload size, payload pointer) keeps
its prior value, no buffer is freed, and no header store happens. -/
theorem update_encode_failure_preserves_state
    (published_at_ns : Nat) (d : otel_process_ctx_data) (pid : Nat)
    (st : otel_process_ctx_state) (hdr : otel_process_ctx_mapping) (msg : String)
    (hmap : st.mapping = .mapped hdr)
    (hpid : pid = st.publisher_pid)
    (henc : otel_process_ctx_encode_protobuf_payload d = .error msg) :
    otel_process_ctx_update published_at_ns (some d) pid st =
      ⟨⟨false, some msg⟩, st, [], [hdr]⟩ := by
  obtain ⟨pp, m, pl⟩ := st
  simp only at hmap hpid
  subst hmap
  subst hpid
  unfold otel_process_ctx_update
  simp only [henc, if_true]

/-- Concrete instance of `update_encode_failure_preserves_state`: updating
the published `sample_data` context with `sample_long_data` (whose
`service.name` is 4097 bytes) fails and leaves the state untouched. -/
theorem update_encode_failure_preserves_state_witness :
    (otel_process_ctx_update 77 (some sample_long_data) 1 sample_pub_state).state =
      sample_pub_state ∧
    (otel_process_ctx_update 77 (some sample_long_data) 1 sample_pub_state).freed = [] ∧
    (otel_process_ctx_update 77 (some sample_long_data) 1 sample_pub_state).trace =
      [sample_hdr] := by
  have hover : ∃ p ∈ identity_pairs (strBytes "prod") (strBytes "123d8444")
      (List.replicate 4097 97) (strBytes "4.5.6") (strBytes "c") (strBytes "1.2.3")
      (strBytes "example_ctx.c"), 4096 < p.1.length ∨ 4096 < p.2.length := by
    refine ⟨(strBytes "service.name", List.replicate 4097 97), ?_, Or.inr ?_⟩
    · unfold identity_pairs
      exact List.mem_cons_of_mem _ (List.mem_cons_of_mem _ (List.mem_cons_self _ _))
    · rw [List.length_replicate]
      omega
  obtain ⟨msg, hmsg⟩ := validate_error_of_over _ hover
  have henc : otel_process_ctx_encode_protobuf_payload sample_long_data = .error msg := by
    unfold sample_long_data otel_process_ctx_encode_protobuf_payload
    simp only
    rw [hmsg]
  have h := update_encode_failure_preserves_state 77 sample_long_data 1 sample_pub_state
    sample_hdr msg rfl rfl henc
  rw [h]
  exact ⟨rfl, rfl, rfl⟩

/-- C8: dropping from the all-zero state succeeds, and dropping twice in a
row succeeds (after any drop the state is the all-zero state); in every
state, drop fails exactly when the snapshot was published by this process
and `munmap` fails; the snapshot's payload is freed and the singleton is
zeroed unconditionally, and `munmap` runs exactly on a self-published
mapping. -/
theorem drop_current_spec (st : otel_process_ctx_state) (pid pid2 : Nat)
    (munmap_ok munmap_ok2 : Bool) :
    (otel_process_ctx_drop_current zero_state pid munmap_ok).success = true
  ∧ (otel_process_ctx_drop_current
       (otel_process_ctx_drop_current st pid munmap_ok).state pid2 munmap_ok2).success = true
  ∧ ((otel_process_ctx_drop_current st pid munmap_ok).success = false ↔
       ctx_is_published st pid = true ∧ munmap_ok = false)
  ∧ (otel_process_ctx_drop_current st pid munmap_ok).state = zero_state
  ∧ (otel_process_ctx_drop_current st pid munmap_ok).freed = st.payload.toList
  ∧ ((otel_process_ctx_drop_current st pid munmap_ok).unmapped = true ↔
       ctx_is_published st pid = true) := by
  refine ⟨rfl, rfl, ?_, rfl, rfl, ?_⟩
  · unfold otel_process_ctx_drop_current
    cases hcp : ctx_is_published st pid <;> cases munmap_ok <;> simp [hcp]
  · unfold otel_process_ctx_drop_current
    cases hcp : ctx_is_published st pid <;> simp [hcp]

/-- C10: `read_drop` on a NULL result or an unsuccessful result returns
false and leaves the result unchanged; on a successful result it frees the
contained strings (every identity string, every resource entry, and the
resource array itself), overwrites the result with the unsuccessful
"Data dropped" result around `empty_data`, and returns true. -/
theorem read_drop_spec :
    otel_process_ctx_read_drop none = (false, none, none)
  ∧ (∀ r : otel_process_ctx_read_result, r.success = false →
       otel_process_ctx_read_drop (some r) = (false, some r, none))
  ∧ (∀ r : otel_process_ctx_read_result, r.success = true →
       otel_process_ctx_read_drop (some r) =
         (true, some ⟨false, some "Data dropped", empty_data⟩,
          some (otel_process_ctx_read_data_drop r.data)))
  ∧ (∀ e i n v lang sv sn : List Nat, ∀ rs : List (List Nat × List Nat),
       otel_process_ctx_read_data_drop
           ⟨some e, some i, some n, some v, some lang, some sv, some sn, some rs⟩ =
         ⟨[e, i, n, v, lang, sv, sn] ++ pairsFlatten rs, true⟩) := by
  refine ⟨rfl, ?_, ?_, ?_⟩
  · intro r hr
    simp [otel_process_ctx_read_drop, hr]
  · intro r hr
    simp [otel_process_ctx_read_drop, hr]
  · intro e i n v lang sv sn rs
    simp [otel_process_ctx_read_data_drop, Option.toList]

/-- Concrete instance of `read_drop_spec`: dropping a successful read of
`sample_data` yields the "Data dropped" result and frees its strings. -/
theorem read_drop_spec_witness :
    otel_process_ctx_read_drop (some ⟨true, none, sample_data⟩) =
      (true, some ⟨false, some "Data dropped", empty_data⟩,
       some (otel_process_ctx_read_data_drop sample_data)) :=
  read_drop_spec.2.2.1 ⟨true, none, sample_data⟩ rfl

/-- C2: in every state already published by the current process (mapping
set, not MAP_FAILED, publisher pid equal to the current pid), publish
performs exactly update: `publish(b)` equals `update(b)` as a whole
outcome, so `publish(a); publish(b)` is `publish(a); update(b)`; the final
header reflects `b`, and every header state during the call reflects `a`
(the published size/payload pair), reflects `b`, or exposes timestamp 0. -/
theorem publish_delegates_to_update
    (a b : otel_process_ctx_data) (pid : Nat) (env : publish_env)
    (st : otel_process_ctx_state) (hdr : otel_process_ctx_mapping)
    (pa : List Nat) (sza : Nat) (pb : List Nat) (szb : Nat)
    (hpub : ctx_is_published st pid = true)
    (hnow : env.now ≠ 0)
    (hmap : st.mapping = .mapped hdr)
    (henca : otel_process_ctx_encode_protobuf_payload a = .ok (pa, sza))
    (hsize : hdr.otel_process_payload_size = sza)
    (hpay : hdr.otel_process_payload = pa)
    (hencb : otel_process_ctx_encode_protobuf_payload b = .ok (pb, szb)) :
    otel_process_ctx_publish (some b) pid env st =
      otel_process_ctx_update env.now (some b) pid st
  ∧ (otel_process_ctx_publish (some b) pid env st).state.mapping =
      .mapped { hdr with otel_process_payload_size := szb,
                         otel_process_payload := pb,
                         otel_process_ctx_published_at_ns := env.now }
  ∧ (∀ s ∈ (otel_process_ctx_publish (some b) pid env st).trace,
       (s.otel_process_payload_size = sza ∧ s.otel_process_payload = pa) ∨
       (s.otel_process_payload_size = szb ∧ s.otel_process_payload = pb) ∨
       s.otel_process_ctx_published_at_ns = 0) := by
  obtain ⟨pp, m, pl⟩ := st
  simp only at hmap
  subst hmap
  have hdel : otel_process_ctx_publish (some b) pid env ⟨pp, .mapped hdr, pl⟩ =
      otel_process_ctx_update env.now (some b) pid ⟨pp, .mapped hdr, pl⟩ := by
    unfold otel_process_ctx_publish
    simp only
    rw [if_neg hnow, if_pos hpub]
  have hpid : pid = pp := by
    simp [ctx_is_published] at hpub
    exact hpub
  subst hpid
  refine ⟨hdel, ?_, ?_⟩
  · rw [hdel]
    unfold otel_process_ctx_update
    simp only [hencb, if_true]
  · rw [hdel]
    unfold otel_process_ctx_update
    simp only [hencb, if_true]
    intro s hs
    simp only [List.mem_cons, List.not_mem_nil, or_false] at hs
    rcases hs with h | h | h | h | h <;> subst h
    · exact Or.inl ⟨hsize, hpay⟩
    · exact Or.inr (Or.inr rfl)
    · exact Or.inr (Or.inr rfl)
    · exact Or.inr (Or.inr rfl)
    · exact Or.inr (Or.inl ⟨rfl, rfl⟩)

set_option maxRecDepth 100000 in
/-- Concrete instance of `publish_delegates_to_update`: re-publishing
`sample_data2` over the published `sample_data` context is exactly the
corresponding update call. -/
theorem publish_delegates_to_update_witness :
    otel_process_ctx_publish (some sample_data2) 1 sample_env sample_pub_state =
      otel_process_ctx_update 77 (some sample_data2) 1 sample_pub_state :=
  (publish_delegates_to_update sample_data sample_data2 1 sample_env sample_pub_state
    sample_hdr sample_payload sample_payload_size sample2_payload sample2_payload_size
    rfl (by decide) rfl rfl rfl rfl rfl).1

/-! Round-trip lemmas: the decoder inverts the encoder, record by record. -/

theorem write_tag_1 : write_protobuf_tag 1 = [10] := rfl

theorem write_tag_2 : write_protobuf_tag 2 = [18] := rfl

theorem read_tag_10 (rest : List Nat) : read_protobuf_tag (10 :: rest) = some (1, rest) := by
  unfold read_protobuf_tag
  norm_num

theorem read_tag_18 (rest : List Nat) : read_protobuf_tag (18 :: rest) = some (2, rest) := by
  unfold read_protobuf_tag
  norm_num

theorem read_write_string_nil (s : List Nat) (h : s.length ≤ 4096) :
    read_protobuf_string (write_protobuf_string s) = some (s, []) := by
  have hh := read_write_string s [] h
  rwa [List.append_nil] at hh

theorem cstr_eq_self (s : List Nat) (h : ∀ b ∈ s, b ≠ 0) : cstr s = s := by
  unfold cstr
  rw [List.takeWhile_eq_self_iff]
  intro x hx
  simp [h x hx]

theorem write_keyvalue_payload_eq (k v : List Nat) :
    write_keyvalue_payload k v =
      10 :: (write_protobuf_string k ++
        (18 :: (write_protobuf_varint (protobuf_string_size v) ++
          (10 :: write_protobuf_string v)))) := by
  unfold write_keyvalue_payload
  rw [write_tag_1, write_tag_2]
  simp [List.append_assoc]

theorem parse_write_keyvalue (k v : List Nat) (hk : k.length ≤ 4096)
    (hv : v.length ≤ 4096) (fuel : Nat) :
    parse_keyvalue (fuel + 3) (write_keyvalue_payload k v) none none = some (k, v) := by
  have hssv : protobuf_string_size v ≤ UINT14_MAX := by
    have := protobuf_string_size_le v hv
    unfold UINT14_MAX
    omega
  rw [write_keyvalue_payload_eq]
  simp only [show fuel + 3 = (fuel + 2) + 1 from rfl, parse_keyvalue, read_tag_10,
    read_write_string k _ hk, read_tag_18, read_write_varint _ _ hssv,
    read_write_string_nil v hv]
  norm_num

theorem decode_records_cons (fuel : Nat) (k v tail : List Nat)
    (acc : otel_process_ctx_data) (hk : k.length ≤ 4096) (hv : v.length ≤ 4096) :
    decode_records (fuel + 1) (write_attribute k v ++ tail) acc =
      match dispatch_keyvalue acc (cstr k) (cstr v) with
      | none => none
      | some acc2 => decode_records fuel tail acc2 := by
  have hkv_le : protobuf_otel_keyvalue_string_size k v ≤ UINT14_MAX := by
    have := protobuf_keyvalue_size_le k v hk hv
    unfold UINT14_MAX
    omega
  have hkv_ge := protobuf_keyvalue_size_ge k v
  have hlen := write_keyvalue_payload_length k v hk hv
  rw [write_attribute_eq, write_tag_1]
  simp only [List.append_assoc, List.cons_append, List.nil_append]
  simp only [decode_records, read_tag_10, read_write_varint _ _ hkv_le]
  rw [if_neg (by norm_num)]
  rw [if_neg (by simp only [List.length_append]; omega)]
  rw [List.take_left' hlen, List.drop_left' hlen]
  rw [show protobuf_otel_keyvalue_string_size k v + 1 =
    (protobuf_otel_keyvalue_string_size k v - 2) + 3 from by omega]
  rw [parse_write_keyvalue k v hk hv]

theorem decode_records_nil (fuel : Nat) (h : 1 ≤ fuel) (acc : otel_process_ctx_data) :
    decode_records fuel [] acc = some acc := by
  cases fuel with
  | zero => omega
  | succ f => rfl

theorem write_attributes_append (ps qs : List (List Nat × List Nat)) :
    write_attributes (ps ++ qs) = write_attributes ps ++ write_attributes qs := by
  induction ps with
  | nil => rfl
  | cons hd tl ih =>
    obtain ⟨k, v⟩ := hd
    simp [write_attributes, ih, List.append_assoc]

theorem write_attributes_length_ge (ps : List (List Nat × List Nat)) :
    ps.length ≤ (write_attributes ps).length := by
  induction ps with
  | nil => simp [write_attributes]
  | cons hd tl ih =>
    obtain ⟨k, v⟩ := hd
    simp only [write_attributes, List.length_cons, List.length_append]
    have : 1 ≤ (write_attribute k v).length := by
      rw [write_attribute_eq]
      simp [write_tag_1]
    omega

theorem decode_records_write_attributes (ps : List (List Nat × List Nat))
    (fuel : Nat) (tail : List Nat) (acc : otel_process_ctx_data)
    (hps : ∀ p ∈ ps, p.1.length ≤ 4096 ∧ p.2.length ≤ 4096 ∧
      (∀ b ∈ p.1, b ≠ 0) ∧ (∀ b ∈ p.2, b ≠ 0)) :
    decode_records (ps.length + fuel) (write_attributes ps ++ tail) acc =
      match dispatch_fold acc ps with
      | none => none
      | some acc2 => decode_records fuel tail acc2 := by
  induction ps generalizing acc with
  | nil =>
    simp only [write_attributes, dispatch_fold, List.length_nil, List.nil_append,
      Nat.zero_add]
  | cons hd tl ih =>
    obtain ⟨k, v⟩ := hd
    obtain ⟨hk, hv, hk0, hv0⟩ := hps (k, v) (List.mem_cons_self _ _)
    have htl : ∀ p ∈ tl, p.1.length ≤ 4096 ∧ p.2.length ≤ 4096 ∧
        (∀ b ∈ p.1, b ≠ 0) ∧ (∀ b ∈ p.2, b ≠ 0) :=
      fun p hp => hps p (List.mem_cons_of_mem _ hp)
    simp only [write_attributes, List.length_cons, List.append_assoc]
    rw [show tl.length + 1 + fuel = (tl.length + fuel) + 1 from by omega]
    rw [decode_records_cons (tl.length + fuel) k v _ acc hk hv]
    rw [cstr_eq_self k hk0, cstr_eq_self v hv0]
    simp only [dispatch_fold]
    cases hda : dispatch_keyvalue acc k v with
    | none => rfl
    | some acc2 => exact ih acc2 htl

theorem dispatch_fold_append (acc : otel_process_ctx_data)
    (ps qs : List (List Nat × List Nat)) :
    dispatch_fold acc (ps ++ qs) =
      match dispatch_fold acc ps with
      | none => none
      | some acc2 => dispatch_fold acc2 qs := by
  induction ps generalizing acc with
  | nil => rfl
  | cons hd tl ih =>
    obtain ⟨k, v⟩ := hd
    simp only [List.cons_append, dispatch_fold]
    cases dispatch_keyvalue acc k v with
    | none => rfl
    | some acc2 => exact ih acc2

theorem dispatch_identity_1 (acc : otel_process_ctx_data) (v : List Nat) :
    dispatch_keyvalue acc (strBytes "deployment.environment.name") v =
      some { acc with deployment_environment_name := some v } := by
  unfold dispatch_keyvalue
  rw [if_pos rfl]

theorem dispatch_identity_2 (acc : otel_process_ctx_data) (v : List Nat) :
    dispatch_keyvalue acc (strBytes "service.instance.id") v =
      some { acc with service_instance_id := some v } := by
  unfold dispatch_keyvalue
  rw [if_neg (by decide), if_pos rfl]

theorem dispatch_identity_3 (acc : otel_process_ctx_data) (v : List Nat) :
    dispatch_keyvalue acc (strBytes "service.name") v =
      some { acc with service_name := some v } := by
  unfold dispatch_keyvalue
  rw [if_neg (by decide), if_neg (by decide), if_pos rfl]

theorem dispatch_identity_4 (acc : otel_process_ctx_data) (v : List Nat) :
    dispatch_keyvalue acc (strBytes "service.version") v =
      some { acc with service_version := some v } := by
  unfold dispatch_keyvalue
  rw [if_neg (by decide), if_neg (by decide), if_neg (by decide), if_pos rfl]

theorem dispatch_identity_5 (acc : otel_process_ctx_data) (v : List Nat) :
    dispatch_keyvalue acc (strBytes "telemetry.sdk.language") v =
      some { acc with telemetry_sdk_language := some v } := by
  unfold dispatch_keyvalue
  rw [if_neg (by decide), if_neg (by decide), if_neg (by decide), if_neg (by decide),
    if_pos rfl]

theorem dispatch_identity_6 (acc : otel_process_ctx_data) (v : List Nat) :
    dispatch_keyvalue acc (strBytes "telemetry.sdk.version") v =
      some { acc with telemetry_sdk_version := some v } := by
  unfold dispatch_keyvalue
  rw [if_neg (by decide), if_neg (by decide), if_neg (by decide), if_neg (by decide),
    if_neg (by decide), if_pos rfl]

theorem dispatch_identity_7 (acc : otel_process_ctx_data) (v : List Nat) :
    dispatch_keyvalue acc (strBytes "telemetry.sdk.name") v =
      some { acc with telemetry_sdk_name := some v } := by
  unfold dispatch_keyvalue
  rw [if_neg (by decide), if_neg (by decide), if_neg (by decide), if_neg (by decide),
    if_neg (by decide), if_neg (by decide), if_pos rfl]

theorem dispatch_keyvalue_unknown (acc : otel_process_ctx_data) (k v : List Nat)
    (hk : k ∉ identity_keys) :
    dispatch_keyvalue acc k v =
      if 2 * (acc.resources.getD []).length + 2 ≥ 201 then none
      else some { acc with resources := some (acc.resources.getD [] ++ [(k, v)]) } := by
  simp only [identity_keys, List.mem_cons, List.not_mem_nil, or_false, not_or] at hk
  obtain ⟨h1, h2, h3, h4, h5, h6, h7⟩ := hk
  unfold dispatch_keyvalue
  rw [if_neg h1, if_neg h2, if_neg h3, if_neg h4, if_neg h5, if_neg h6, if_neg h7]

theorem dispatch_fold_identity (acc : otel_process_ctx_data)
    (e i n v lang sv sn : List Nat) :
    dispatch_fold acc (identity_pairs e i n v lang sv sn) =
      some { acc with deployment_environment_name := some e,
                      service_instance_id := some i,
                      service_name := some n,
                      service_version := some v,
                      telemetry_sdk_language := some lang,
                      telemetry_sdk_version := some sv,
                      telemetry_sdk_name := some sn } := by
  unfold identity_pairs
  simp only [dispatch_fold, dispatch_identity_1, dispatch_identity_2, dispatch_identity_3,
    dispatch_identity_4, dispatch_identity_5, dispatch_identity_6, dispatch_identity_7]

theorem dispatch_fold_resources (rs : List (List Nat × List Nat))
    (acc : otel_process_ctx_data) (rcur : List (List Nat × List Nat))
    (hres : acc.resources = some rcur)
    (hlen : rcur.length + rs.length ≤ 100)
    (hkeys : ∀ p ∈ rs, p.1 ∉ identity_keys) :
    dispatch_fold acc rs = some { acc with resources := some (rcur ++ rs) } := by
  induction rs generalizing acc rcur with
  | nil =>
    obtain ⟨f1, f2, f3, f4, f5, f6, f7, f8⟩ := acc
    simp only at hres
    subst hres
    simp [dispatch_fold]
  | cons hd tl ih =>
    obtain ⟨k, v⟩ := hd
    simp only [dispatch_fold]
    rw [dispatch_keyvalue_unknown acc k v (hkeys (k, v) (List.mem_cons_self _ _))]
    rw [hres]
    simp only [Option.getD_some, List.length_cons] at hlen ⊢
    rw [if_neg (by omega)]
    have hstep := ih { acc with resources := some (rcur ++ [(k, v)]) } (rcur ++ [(k, v)]) rfl
      (by simp only [List.length_append, List.length_cons, List.length_nil]; omega)
      (fun p hp => hkeys p (List.mem_cons_of_mem _ hp))
    simp only [hstep]
    simp [List.append_assoc]

/-- C3 (amended): for attribute objects whose seven identity values and
resource strings are valid C strings of at most 4096 bytes, with at most
100 resource pairs, and — as the counterexample
`encode_decode_roundtrip_cex` forces — whose resource keys avoid the seven
identity keys, decoding the encoded payload returns exactly the input: all
seven identity fields byte-equal and the resource pairs byte-equal in input
order (an absent resource array decodes as the present empty one). -/
theorem encode_decode_roundtrip
    (e i n v lang sv sn : List Nat) (rs? : Option (List (List Nat × List Nat)))
    (he : ValidStr e) (hi : ValidStr i) (hn : ValidStr n) (hv : ValidStr v)
    (hlang : ValidStr lang) (hsv : ValidStr sv) (hsn : ValidStr sn)
    (hres : ∀ p ∈ rs?.getD [], ValidStr p.1 ∧ ValidStr p.2)
    (hcount : (rs?.getD []).length ≤ 100)
    (hkeys : ∀ p ∈ rs?.getD [], p.1 ∉ identity_keys) :
    ∃ payload out_size,
      otel_process_ctx_encode_protobuf_payload
          ⟨some e, some i, some n, some v, some lang, some sv, some sn, rs?⟩ =
        .ok (payload, out_size) ∧
      otel_process_ctx_decode_payload payload =
        some ⟨some e, some i, some n, some v, some lang, some sv, some sn,
              some (rs?.getD [])⟩ := by
  have hidb : ∀ p ∈ identity_pairs e i n v lang sv sn,
      p.1.length ≤ 4096 ∧ p.2.length ≤ 4096 := by
    intro p hp
    simp only [identity_pairs, List.mem_cons, List.not_mem_nil, or_false] at hp
    rcases hp with h | h | h | h | h | h | h
    · subst h; exact ⟨(by decide : (strBytes "deployment.environment.name").length ≤ 4096), he.1⟩
    · subst h; exact ⟨(by decide : (strBytes "service.instance.id").length ≤ 4096), hi.1⟩
    · subst h; exact ⟨(by decide : (strBytes "service.name").length ≤ 4096), hn.1⟩
    · subst h; exact ⟨(by decide : (strBytes "service.version").length ≤ 4096), hv.1⟩
    · subst h; exact ⟨(by decide : (strBytes "telemetry.sdk.language").length ≤ 4096), hlang.1⟩
    · subst h; exact ⟨(by decide : (strBytes "telemetry.sdk.version").length ≤ 4096), hsv.1⟩
    · subst h; exact ⟨(by decide : (strBytes "telemetry.sdk.name").length ≤ 4096), hsn.1⟩
  obtain ⟨n1, h1⟩ := validate_ok_of_bounds _ hidb
  have h2x : ∃ n2, (match rs? with
      | some rs => validate_and_calculate_protobuf_payload_size rs
      | none => .ok 0 : Except String Nat) = .ok n2 := by
    cases rs? with
    | none => exact ⟨0, rfl⟩
    | some rs =>
      obtain ⟨n2, h2⟩ := validate_ok_of_bounds rs
        (fun p hp => ⟨((hres p (by simpa using hp)).1).1, ((hres p (by simpa using hp)).2).1⟩)
      exact ⟨n2, h2⟩
  obtain ⟨n2, h2⟩ := h2x
  have henc : otel_process_ctx_encode_protobuf_payload
      ⟨some e, some i, some n, some v, some lang, some sv, some sn, rs?⟩ =
      .ok (write_attributes (identity_pairs e i n v lang sv sn) ++
             write_attributes (rs?.getD []), (n1 + n2) % 4294967296) := by
    unfold otel_process_ctx_encode_protobuf_payload
    simp only
    rw [h1, h2]
  refine ⟨_, _, henc, ?_⟩
  have hconds : ∀ p ∈ identity_pairs e i n v lang sv sn ++ rs?.getD [],
      p.1.length ≤ 4096 ∧ p.2.length ≤ 4096 ∧
      (∀ b ∈ p.1, b ≠ 0) ∧ (∀ b ∈ p.2, b ≠ 0) := by
    intro p hp
    rw [List.mem_append] at hp
    cases hp with
    | inl hp =>
      simp only [identity_pairs, List.mem_cons, List.not_mem_nil, or_false] at hp
      rcases hp with h | h | h | h | h | h | h
      · subst h
        exact ⟨(by decide : (strBytes "deployment.environment.name").length ≤ 4096), he.1,
          (by decide : ∀ b ∈ strBytes "deployment.environment.name", b ≠ 0),
          fun b hb => by have := he.2 b hb; omega⟩
      · subst h
        exact ⟨(by decide : (strBytes "service.instance.id").length ≤ 4096), hi.1,
          (by decide : ∀ b ∈ strBytes "service.instance.id", b ≠ 0),
          fun b hb => by have := hi.2 b hb; omega⟩
      · subst h
        exact ⟨(by decide : (strBytes "service.name").length ≤ 4096), hn.1,
          (by decide : ∀ b ∈ strBytes "service.name", b ≠ 0),
          fun b hb => by have := hn.2 b hb; omega⟩
      · subst h
        exact ⟨(by decide : (strBytes "service.version").length ≤ 4096), hv.1,
          (by decide : ∀ b ∈ strBytes "service.version", b ≠ 0),
          fun b hb => by have := hv.2 b hb; omega⟩
      · subst h
        exact ⟨(by decide : (strBytes "telemetry.sdk.language").length ≤ 4096), hlang.1,
          (by decide : ∀ b ∈ strBytes "telemetry.sdk.language", b ≠ 0),
          fun b hb => by have := hlang.2 b hb; omega⟩
      · subst h
        exact ⟨(by decide : (strBytes "telemetry.sdk.version").length ≤ 4096), hsv.1,
          (by decide : ∀ b ∈ strBytes "telemetry.sdk.version", b ≠ 0),
          fun b hb => by have := hsv.2 b hb; omega⟩
      · subst h
        exact ⟨(by decide : (strBytes "telemetry.sdk.name").length ≤ 4096), hsn.1,
          (by decide : ∀ b ∈ strBytes "telemetry.sdk.name", b ≠ 0),
          fun b hb => by have := hsn.2 b hb; omega⟩
    | inr hp =>
      obtain ⟨⟨hl1, hb1⟩, hl2, hb2⟩ := hres p hp
      exact ⟨hl1, hl2, fun b hb => by have := hb1 b hb; omega,
        fun b hb => by have := hb2 b hb; omega⟩
  have hpay_eq : write_attributes (identity_pairs e i n v lang sv sn) ++
      write_attributes (rs?.getD []) =
      write_attributes (identity_pairs e i n v lang sv sn ++ rs?.getD []) :=
    (write_attributes_append _ _).symm
  have hge := write_attributes_length_ge (identity_pairs e i n v lang sv sn ++ rs?.getD [])
  have hdec := decode_records_write_attributes
    (identity_pairs e i n v lang sv sn ++ rs?.getD [])
    ((write_attributes (identity_pairs e i n v lang sv sn ++ rs?.getD [])).length + 1 -
      (identity_pairs e i n v lang sv sn ++ rs?.getD []).length)
    [] { empty_data with resources := some [] } hconds
  rw [List.append_nil] at hdec
  unfold otel_process_ctx_decode_payload
  rw [hpay_eq]
  rw [show (write_attributes (identity_pairs e i n v lang sv sn ++ rs?.getD [])).length + 1 =
    (identity_pairs e i n v lang sv sn ++ rs?.getD []).length +
      ((write_attributes (identity_pairs e i n v lang sv sn ++ rs?.getD [])).length + 1 -
        (identity_pairs e i n v lang sv sn ++ rs?.getD []).length) from by omega]
  rw [hdec]
  rw [dispatch_fold_append]
  rw [dispatch_fold_identity]
  simp only [empty_data]
  rw [dispatch_fold_resources (rs?.getD [])
    ⟨some e, some i, some n, some v, some lang, some sv, some sn, some []⟩
    [] rfl (by simpa using hcount) hkeys]
  have hf1 : 1 ≤ (write_attributes (identity_pairs e i n v lang sv sn ++ rs?.getD [])).length + 1 -
      (identity_pairs e i n v lang sv sn ++ rs?.getD []).length := by omega
  simp only [List.nil_append]
  rw [decode_records_nil _ hf1]
  simp

set_option maxRecDepth 1000000 in
/-- C3 counterexample: for `collision_data`, whose resource list holds the
pair `("service.name", "x")` — well within all length and count limits —
decode of encode is NOT the identity: the decoder dispatches the resource
pair into the `service_name` identity field (overwriting `"my-service"`
with `"x"`) and returns an empty resource list. -/
theorem encode_decode_roundtrip_cex :
    encode_then_decode collision_data ≠ some collision_data ∧
    encode_then_decode collision_data =
      some { collision_data with service_name := some (strBytes "x"),
                                 resources := some [] } := by
  constructor
  · decide
  · decide

set_option maxRecDepth 1000000 in
/-- Concrete instance of `encode_decode_roundtrip`: `sample_data` (whose
resource key `resource.key1` is not an identity key) round-trips exactly. -/
theorem encode_decode_roundtrip_witness :
    encode_then_decode sample_data = some sample_data := by
  obtain ⟨payload, out_size, henc, hdec⟩ :=
    encode_decode_roundtrip (strBytes "prod") (strBytes "123d8444") (strBytes "my-service")
      (strBytes "4.5.6") (strBytes "c") (strBytes "1.2.3") (strBytes "example_ctx.c")
      (some [(strBytes "resource.key1", strBytes "resource.value1")])
      (by decide) (by decide) (by decide) (by decide) (by decide) (by decide) (by decide)
      (by decide) (by decide) (by decide)
  unfold encode_then_decode sample_data
  simp only [henc, hdec, Option.getD_some]

/-! Simulation between the decoder and the specification-side checker. -/

theorem dispatch_sim (acc : otel_process_ctx_data) (c : payload_check_state)
    (k v : List Nat) (h : accRel acc c) :
    OptionRel accRel (dispatch_keyvalue acc k v) (check_dispatch c k) := by
  obtain ⟨h1, h2, h3, h4, h5, h6, h7, h8⟩ := h
  unfold dispatch_keyvalue check_dispatch
  simp only []
  split_ifs with hk1 hk2 hk3 hk4 hk5 hk6 hk7 hcap1 hcap2 hcap3
  · exact OptionRel.some ⟨rfl, h2, h3, h4, h5, h6, h7, h8⟩
  · exact OptionRel.some ⟨h1, rfl, h3, h4, h5, h6, h7, h8⟩
  · exact OptionRel.some ⟨h1, h2, rfl, h4, h5, h6, h7, h8⟩
  · exact OptionRel.some ⟨h1, h2, h3, rfl, h5, h6, h7, h8⟩
  · exact OptionRel.some ⟨h1, h2, h3, h4, rfl, h6, h7, h8⟩
  · exact OptionRel.some ⟨h1, h2, h3, h4, h5, rfl, h7, h8⟩
  · exact OptionRel.some ⟨h1, h2, h3, h4, h5, h6, rfl, h8⟩
  · exact OptionRel.none
  · omega
  · omega
  · refine OptionRel.some ⟨h1, h2, h3, h4, h5, h6, h7, ?_⟩
    simp only [Option.getD_some, List.length_append, List.length_cons, List.length_nil]
    omega

theorem records_sim (fuel : Nat) :
    ∀ bytes (acc : otel_process_ctx_data) (c : payload_check_state), accRel acc c →
      OptionRel accRel (decode_records fuel bytes acc) (check_records fuel bytes c) := by
  induction fuel with
  | zero =>
    intro bytes acc c _
    exact OptionRel.none
  | succ f ih =>
    intro bytes acc c h
    cases bytes with
    | nil => exact OptionRel.some h
    | cons b rest0 =>
      simp only [decode_records, check_records]
      cases htag : read_protobuf_tag (b :: rest0) with
      | none => exact OptionRel.none
      | some fr =>
        obtain ⟨field_number, rest⟩ := fr
        simp only
        by_cases hfn : field_number ≠ 1
        · rw [if_pos hfn, if_pos hfn]
          exact OptionRel.none
        · rw [if_neg hfn, if_neg hfn]
          cases hvar : read_protobuf_varint rest with
          | none => exact OptionRel.none
          | some kv =>
            obtain ⟨kv_len, rest2⟩ := kv
            simp only
            by_cases hb : kv_len > rest2.length
            · rw [if_pos hb, if_pos hb]
              exact OptionRel.none
            · rw [if_neg hb, if_neg hb]
              cases hpk : parse_keyvalue (kv_len + 1) (rest2.take kv_len) none none with
              | none => exact OptionRel.none
              | some kvp =>
                obtain ⟨k, v⟩ := kvp
                simp only
                have hds := dispatch_sim acc c (cstr k) (cstr v) h
                cases hd : dispatch_keyvalue acc (cstr k) (cstr v) with
                | none =>
                  rw [hd] at hds
                  cases hc : check_dispatch c (cstr k) with
                  | none => exact OptionRel.none
                  | some c2 =>
                    rw [hc] at hds
                    cases hds
                | some acc2 =>
                  rw [hd] at hds
                  cases hc : check_dispatch c (cstr k) with
                  | none =>
                    rw [hc] at hds
                    cases hds
                  | some c2 =>
                    rw [hc] at hds
                    cases hds with
                    | some hrel => exact ih _ _ _ hrel

/-- C5: the decoder rejects a payload exactly when the payload deviates from
the encoder's restricted format as the claim enumerates it — a non-LEN wire
type, a top-level field number other than 1, a varint above 16383 or past
the buffer, a string of 4097 bytes or more or past its record, a KeyValue
without key or value, more than 100 unknown-key resource pairs, or one of
the seven required identity keys absent from the whole payload. -/
theorem decode_rejects_iff_deviates (payload : List Nat) :
    otel_process_ctx_decode_payload payload = none ↔
      payload_deviates payload = true := by
  have hsim := records_sim (payload.length + 1) payload
    { empty_data with resources := some [] } check_init
    ⟨rfl, rfl, rfl, rfl, rfl, rfl, rfl, rfl⟩
  unfold otel_process_ctx_decode_payload payload_deviates
  cases hd : decode_records (payload.length + 1) payload
      { empty_data with resources := some [] } with
  | none =>
    rw [hd] at hsim
    cases hc : check_records (payload.length + 1) payload check_init with
    | none => simp
    | some c =>
      rw [hc] at hsim
      cases hsim
  | some acc =>
    rw [hd] at hsim
    cases hc : check_records (payload.length + 1) payload check_init with
    | none =>
      rw [hc] at hsim
      cases hsim
    | some c =>
      rw [hc] at hsim
      cases hsim with
      | some hrel =>
        obtain ⟨h1, h2, h3, h4, h5, h6, h7, _⟩ := hrel
        simp only [← h1, ← h2, ← h3, ← h4, ← h5, ← h6, ← h7]
        by_cases hall : (acc.deployment_environment_name.isSome &&
            acc.service_instance_id.isSome && acc.service_name.isSome &&
            acc.service_version.isSome && acc.telemetry_sdk_language.isSome &&
            acc.telemetry_sdk_version.isSome && acc.telemetry_sdk_name.isSome) = true
        · simp [hall]
        · simp only [Bool.not_eq_true] at hall
          simp [hall]

end OtelProcessCtx
